import Mathlib

/-!
Verification of the Mini-Server HTTP stack: a shallow embedding of the
HTTP parser/serializer (src/source/server/net/http_parser.cpp), the
service registry (src/source/server/core/service_registry.cpp), the
request router (src/source/server/core/request_router.cpp) and the
connection framing loop (src/server/net/socket_server.cpp), together
with theorems about the specified behaviour.

Byte strings are modelled as lists of characters whose code points play
the role of the byte values; all inputs exercised here are ASCII.
C++ maps (std::map) are modelled as key-sorted association lists, and
the registry (std::unordered_map) as a plain association list in some
iteration order.  Handlers that may throw a std::exception are modelled
as functions into Except (every catch clause in the sources names
const std::exception); num_get hex corner cases around a 0x prefix are
modelled as a plain digit scan.
-/

namespace MiniServer

abbrev Str := List Char

/-- The istream whitespace class (space, tab, newline, carriage return,
vertical tab, form feed) used by operator>> extraction and strtoul. -/
def isStreamWs (c : Char) : Bool :=
  c.toNat = 32 || c.toNat = 9 || c.toNat = 10 || c.toNat = 13 || c.toNat = 11 || c.toNat = 12

/-- The whitespace set " \t\r\n" used by HttpParser::Trim. -/
def isTrimWs (c : Char) : Bool :=
  c.toNat = 32 || c.toNat = 9 || c.toNat = 13 || c.toNat = 10

/-- std::tolower in the C locale, restricted to ASCII. -/
def cppToLower (c : Char) : Char :=
  if 65 ≤ c.toNat ∧ c.toNat ≤ 90 then Char.ofNat (c.toNat + 32) else c

/-- std::toupper in the C locale, restricted to ASCII. -/
def cppToUpper (c : Char) : Char :=
  if 97 ≤ c.toNat ∧ c.toNat ≤ 122 then Char.ofNat (c.toNat - 32) else c

/-- HTTP method enumeration from http_types.hpp. -/
inductive Method where
  | GET | POST | PUT | DELETE | OPTIONS | HEAD | PATCH | UNKNOWN
deriving DecidableEq

/-- HTTP status code enumeration from http_types.hpp. -/
inductive StatusCode where
  | OK | Created | NoContent | BadRequest | NotFound
  | MethodNotAllowed | InternalServerError | NotImplemented
deriving DecidableEq

/-- Numeric value of a status code (static_cast to int). -/
def statusToInt : StatusCode → Nat
  | .OK => 200
  | .Created => 201
  | .NoContent => 204
  | .BadRequest => 400
  | .NotFound => 404
  | .MethodNotAllowed => 405
  | .InternalServerError => 500
  | .NotImplemented => 501

/-- Reason phrase table, HttpParser::GetStatusText. -/
def getStatusText : StatusCode → Str
  | .OK => "OK".data
  | .Created => "Created".data
  | .NoContent => "No Content".data
  | .BadRequest => "Bad Request".data
  | .NotFound => "Not Found".data
  | .MethodNotAllowed => "Method Not Allowed".data
  | .InternalServerError => "Internal Server Error".data
  | .NotImplemented => "Not Implemented".data

/-- Lexicographic less-than on strings by character value, modelling the
key order of std::map over std::string. -/
def strLtB : Str → Str → Bool
  | [], [] => false
  | [], _ :: _ => true
  | _ :: _, [] => false
  | a :: as, b :: bs =>
    if a.toNat < b.toNat then true
    else if b.toNat < a.toNat then false
    else strLtB as bs

/-- A std::map from string to string: a key-sorted association list. -/
abbrev HMap := List (Str × Str)

/-- map[k] = v assignment on a key-sorted association list. -/
def insertSorted (k v : Str) : HMap → HMap
  | [] => [(k, v)]
  | (k1, v1) :: t =>
    if k = k1 then (k, v) :: t
    else if strLtB k k1 then (k, v) :: (k1, v1) :: t
    else (k1, v1) :: insertSorted k v t

/-- map.find(k), returning the mapped value when present. -/
def mapFind (k : Str) : HMap → Option Str
  | [] => none
  | (k1, v1) :: t => if k1 = k then some v1 else mapFind k t

/-- Parsed HTTP request (struct Request in http_types.hpp). -/
structure Request where
  method : Method
  path : Str
  query_string : Str
  headers : HMap
  body : Str
deriving DecidableEq

/-- Outgoing HTTP response (struct Response in http_types.hpp). -/
structure Response where
  status : StatusCode
  headers : HMap
  body : Str
deriving DecidableEq

/-! ### HttpParser -/

/-- The sequence of lines produced by repeated std::getline on an
istringstream, accumulating the current line in reverse. -/
def cppLinesGo (acc : Str) : Str → List Str
  | [] => [acc.reverse]
  | c :: rest =>
    if c = '\n' then
      if rest = [] then [acc.reverse] else acc.reverse :: cppLinesGo [] rest
    else cppLinesGo (c :: acc) rest

/-- All lines of a raw buffer as read by std::getline (no lines from an
empty stream; a final line without newline is still returned). -/
def cppLines (s : Str) : List Str :=
  if s = [] then [] else cppLinesGo [] s

/-- Remove a single trailing carriage return, as done after each getline. -/
def chomp (l : Str) : Str :=
  if l.getLast? = some '\r' then l.dropLast else l

/-- Whitespace tokenization performed by chained operator>> extraction;
the current token is accumulated in reverse. -/
def tokenizeGo (cur : Str) : Str → List Str
  | [] => if cur = [] then [] else [cur.reverse]
  | c :: rest =>
    if isStreamWs c then
      if cur = [] then tokenizeGo [] rest
      else cur.reverse :: tokenizeGo [] rest
    else tokenizeGo (c :: cur) rest

/-- All whitespace-separated tokens of a line. -/
def tokenizeWs (s : Str) : List Str := tokenizeGo [] s

/-- HttpParser::ParseMethod: case-insensitive match against the closed
method set. -/
def parseMethod (s : Str) : Option Method :=
  let u := s.map cppToUpper
  if u = "GET".data then some .GET
  else if u = "POST".data then some .POST
  else if u = "PUT".data then some .PUT
  else if u = "DELETE".data then some .DELETE
  else if u = "OPTIONS".data then some .OPTIONS
  else if u = "HEAD".data then some .HEAD
  else if u = "PATCH".data then some .PATCH
  else none

/-- First index of a character in a string, std::string::find(char). -/
def findCharIdx (c : Char) : Str → Option Nat
  | [] => none
  | x :: xs => if x = c then some 0 else (findCharIdx c xs).map (· + 1)

/-- Value of one hexadecimal digit character. -/
def hexDigitVal (c : Char) : Option Nat :=
  if 48 ≤ c.toNat ∧ c.toNat ≤ 57 then some (c.toNat - 48)
  else if 97 ≤ c.toNat ∧ c.toNat ≤ 102 then some (c.toNat - 87)
  else if 65 ≤ c.toNat ∧ c.toNat ≤ 70 then some (c.toNat - 55)
  else none

/-- istringstream("<c1><c2>") >> std::hex >> int, as used by UrlDecode:
skip leading whitespace, accept an optional sign, then read hex digits
(at least one required; a second non-digit character is ignored). -/
def hexParse2 (c1 c2 : Char) : Option Int :=
  if isStreamWs c1 then
    (if isStreamWs c2 then none
     else if c2 = '+' ∨ c2 = '-' then none
     else (hexDigitVal c2).map Int.ofNat)
  else if c1 = '+' then (hexDigitVal c2).map Int.ofNat
  else if c1 = '-' then (hexDigitVal c2).map (fun v => -(Int.ofNat v))
  else
    match hexDigitVal c1 with
    | none => none
    | some v1 =>
      match hexDigitVal c2 with
      | none => some (Int.ofNat v1)
      | some v2 => some (Int.ofNat (16 * v1 + v2))

/-- static_cast to char of the parsed hex value, as a byte. -/
def byteChar (v : Int) : Char := Char.ofNat ((v % 256).toNat)

/-- HttpParser::UrlDecode: percent-escapes with two following characters
are fed to the hex reader, plus becomes space, everything else passes
through; a percent with fewer than two following characters stays
literal. -/
def urlDecode : Str → Str
  | [] => []
  | '%' :: c1 :: c2 :: rest2 =>
    (match hexParse2 c1 c2 with
     | some v => byteChar v :: urlDecode rest2
     | none => '%' :: urlDecode (c1 :: c2 :: rest2))
  | '%' :: rest => '%' :: urlDecode rest
  | c :: rest => if c = '+' then ' ' :: urlDecode rest else c :: urlDecode rest

/-- HttpParser::ParseQueryParameters: split the URL on the first
question mark; the part before is percent-decoded into the path, the
part after is the raw query string. -/
def parseQueryParameters (url : Str) : Str × Str :=
  match findCharIdx '?' url with
  | none => (urlDecode url, [])
  | some i => (urlDecode (url.take i), url.drop (i + 1))

/-- HttpParser::ParseRequestLine: three whitespace-separated tokens,
method token matched against the closed set, URL split into path and
query string. -/
def parseRequestLine (line : Str) : Option (Method × Str × Str) :=
  match tokenizeWs line with
  | mstr :: url :: _ :: _ =>
    (parseMethod mstr).map (fun m =>
      let pq := parseQueryParameters url
      (m, pq.1, pq.2))
  | _ => none

/-- HttpParser::Trim. -/
def trim (s : Str) : Str :=
  ((s.dropWhile isTrimWs).reverse.dropWhile isTrimWs).reverse

/-- HttpParser::ParseHeaderLine: a line without a colon is skipped;
otherwise the name is trimmed and lower-cased, the value trimmed, and
the pair stored into the header map. -/
def parseHeaderLine (line : Str) (h : HMap) : HMap :=
  match findCharIdx ':' line with
  | none => h
  | some i =>
    insertSorted ((trim (line.take i)).map cppToLower) (trim (line.drop (i + 1))) h

/-- The header loop of ParseRequest: lines are chomped and parsed until
the first empty line; returns the header map and the remaining lines. -/
def parseHeadersGo (h : HMap) : List Str → HMap × List Str
  | [] => (h, [])
  | l :: rest =>
    let l2 := chomp l
    if l2 = [] then (h, rest)
    else parseHeadersGo (parseHeaderLine l2 h) rest

/-- The body loop of ParseRequest: remaining getline results joined with
a newline between consecutive lines. -/
def joinNL : List Str → Str
  | [] => []
  | [x] => x
  | x :: xs => x ++ '\n' :: joinNL xs

/-- HttpParser::ParseRequest. -/
def parseRequest (raw : Str) : Option Request :=
  if raw = [] then none
  else
    match cppLines raw with
    | [] => none
    | first :: rest =>
      match parseRequestLine (chomp first) with
      | none => none
      | some (m, p, q) =>
        let hr := parseHeadersGo [] rest
        some { method := m, path := p, query_string := q,
               headers := hr.1, body := joinNL hr.2 }

/-- Decimal rendering of a number, std::to_string / stream insertion. -/
def natStr (n : Nat) : Str := (Nat.repr n).data

/-- The response status line emitted by SerializeResponse. -/
def statusLine (st : StatusCode) : Str :=
  "HTTP/1.1 ".data ++ natStr (statusToInt st) ++ ' ' :: (getStatusText st ++ ['\r', '\n'])

/-- The header lines emitted by the serialization loop, in map storage
order. -/
def renderHeaders : HMap → Str
  | [] => []
  | (n, v) :: t => n ++ ':' :: ' ' :: (v ++ '\r' :: '\n' :: renderHeaders t)

/-- The exact Content-Length map key used by SerializeResponse. -/
def clKey : Str := "Content-Length".data

/-- HttpParser::SerializeResponse: status line, stored headers, a
Content-Length header injected only when the map has none, a blank
line, then the body bytes. -/
def serializeResponse (r : Response) : Str :=
  statusLine r.status
  ++ renderHeaders r.headers
  ++ (if mapFind clKey r.headers = none
      then "Content-Length: ".data ++ natStr r.body.length ++ ['\r', '\n']
      else [])
  ++ ['\r', '\n']
  ++ r.body

/-! ### ServiceRegistry -/

/-- Service metadata and handler (struct ServiceInfo).  A handler that
throws a std::exception is modelled by returning an error message. -/
structure ServiceInfo where
  description : Str
  version : Str
  handler : Request → Except Str Response
  enabled : Bool := true

/-- The registry map m_services (std::unordered_map), as an association
list in iteration order. -/
abbrev Reg := List (Str × ServiceInfo)

/-- m_services.find(name). -/
def lookupSvc (k : Str) : Reg → Option ServiceInfo
  | [] => none
  | (k1, v1) :: t => if k1 = k then some v1 else lookupSvc k t

/-- ServiceRegistry::GetService: empty names are rejected before the
map lookup. -/
def getService (name : Str) (reg : Reg) : Option ServiceInfo :=
  if name = [] then none else lookupSvc name reg

/-- ServiceRegistry::HasService. -/
def hasService (name : Str) (reg : Reg) : Bool :=
  if name = [] then false else (lookupSvc name reg).isSome

/-- ServiceRegistry::RegisterService: returns the success flag and the
resulting map. -/
def registerService (name : Str) (info : ServiceInfo) (reg : Reg) : Bool × Reg :=
  if name = [] then (false, reg)
  else if (lookupSvc name reg).isSome then (false, reg)
  else (true, reg ++ [(name, info)])

/-- ServiceRegistry::CreateErrorResponse: a JSON error body with a bare
application/json content type and no Content-Length. -/
def svcErrorResponse (st : StatusCode) (msg : Str) : Response :=
  { status := st,
    headers := insertSorted "Content-Type".data "application/json".data [],
    body := "\x7b\"error\": \"".data ++ msg ++ "\"\x7d".data }

/-- ServiceRegistry::HandleServiceRequest: absent service gives 404,
disabled service gives 500 without consulting the handler, an enabled
handler result is returned as is, and a throwing handler is converted
to a generic 500. -/
def handleServiceRequest (reg : Reg) (req : Request) (name : Str) : Response :=
  match getService name reg with
  | none => svcErrorResponse .NotFound ("Service not found: ".data ++ name)
  | some svc =>
    if svc.enabled = false then
      svcErrorResponse .InternalServerError ("Service disabled: ".data ++ name)
    else
      match svc.handler req with
      | .ok r => r
      | .error _ => svcErrorResponse .InternalServerError "Internal service error".data

/-- One service object of the GetServicesInfo JSON body. -/
def svcEntryJson (n : Str) (i : ServiceInfo) : Str :=
  "    \x7b\n      \"name\": \"".data ++ n
  ++ "\",\n      \"description\": \"".data ++ i.description
  ++ "\",\n      \"version\": \"".data ++ i.version
  ++ "\",\n      \"enabled\": ".data
  ++ (if i.enabled then "true".data else "false".data)
  ++ "\n    \x7d".data

/-- The loop of GetServicesInfo, with its leading-separator flag. -/
def svcEntriesLoop : Reg → Bool → Str
  | [], _ => []
  | (n, i) :: t, first =>
    (if first then [] else ",\n".data) ++ svcEntryJson n i ++ svcEntriesLoop t false

/-- The full JSON document built by GetServicesInfo. -/
def servicesJson (reg : Reg) : Str :=
  "\x7b\n  \"services\": [\n".data ++ svcEntriesLoop reg true
  ++ "\n  ],\n  \"total\": ".data ++ natStr reg.length ++ "\n\x7d".data

/-- ServiceRegistry::GetServicesInfo: a 200 JSON snapshot of the
registry. -/
def getServicesInfo (reg : Reg) : Response :=
  { status := .OK,
    headers := insertSorted "Cache-Control".data "no-cache".data
      (insertSorted "Content-Type".data "application/json".data []),
    body := servicesJson reg }

/-! ### RequestRouter -/

/-- Router collaborators: the registry and the optional static file
handler (external; it may throw, hence Except). -/
structure RouterCtx where
  registry : Reg
  staticH : Option (Request → Except Str Response)

/-- Response::SetHeader / map assignment. -/
def setHeader (r : Response) (k v : Str) : Response :=
  { r with headers := insertSorted k v r.headers }

/-- RequestRouter::AddCorsHeaders: the three standard CORS headers set
on every routed response. -/
def addCorsHeaders (r : Response) : Response :=
  setHeader
    (setHeader
      (setHeader r "Access-Control-Allow-Origin".data "*".data)
      "Access-Control-Allow-Methods".data "GET, POST, PUT, DELETE, OPTIONS".data)
    "Access-Control-Allow-Headers".data "Content-Type, Authorization".data

/-- RequestRouter::HandleOptionsRequest: 200, empty body, four CORS
headers including the max-age. -/
def handleOptionsRequest (_req : Request) : Response :=
  { status := .OK,
    headers :=
      insertSorted "Access-Control-Max-Age".data "86400".data
        (insertSorted "Access-Control-Allow-Headers".data "Content-Type, Authorization".data
          (insertSorted "Access-Control-Allow-Methods".data "GET, POST, PUT, DELETE, OPTIONS".data
            (insertSorted "Access-Control-Allow-Origin".data "*".data []))),
    body := [] }

/-- Response::SetJson: body plus JSON content type and an explicit
Content-Length of the body. -/
def setJson (r : Response) (content : Str) : Response :=
  setHeader
    (setHeader { r with body := content }
      "Content-Type".data "application/json; charset=utf-8".data)
    clKey (natStr content.length)

/-- RequestRouter::CreateErrorResponse, with the timestamp passed in as
a parameter of the model. -/
def routerErrorResponse (ts : Str) (st : StatusCode) (msg : Str) : Response :=
  setJson { status := st, headers := [], body := [] }
    ("\x7b\"error\":\"".data ++ msg ++ "\",\"status\":".data ++ natStr (statusToInt st)
     ++ ",\"timestamp\":\"".data ++ ts ++ "\"\x7d".data)

/-- RequestRouter::HandleRootRequest. -/
def handleRootRequest (ts : Str) : Response :=
  setJson { status := .OK, headers := [], body := [] }
    ("\x7b\"message\":\"Welcome to Mini Server\",\"version\":\"1.0.0\",\"endpoints\":\x7b\"health\":\"GET /ping\",\"services\":\"GET /services\",\"invoke\":\"POST /service/<name>\"\x7d,\"timestamp\":\"".data
     ++ ts ++ "\"\x7d".data)

/-- RequestRouter::ExtractServiceName: strip the nine-character service
route marker, then cut at a question mark and at a hash. -/
def extractServiceName (path : Str) : Str :=
  if path.length ≤ 9 then []
  else
    let n0 := path.drop 9
    let n1 := match findCharIdx '?' n0 with
      | none => n0
      | some i => n0.take i
    match findCharIdx '#' n1 with
    | none => n1
    | some i => n1.take i

/-- RequestRouter::HandlePostRequest. -/
def handlePostRequest (reg : Reg) (ts : Str) (req : Request) : Response :=
  if 9 < req.path.length ∧ req.path.take 9 = "/service/".data then
    let name := extractServiceName req.path
    if name = [] then routerErrorResponse ts .BadRequest "Service name is required".data
    else handleServiceRequest reg req name
  else routerErrorResponse ts .NotFound "Endpoint not found".data

/-- RequestRouter::HandleGetRequest.  path.substr(1) throws
std::out_of_range when the path is empty, modelled as an error; a
present static handler may also propagate an error. -/
def handleGetRequest (ctx : RouterCtx) (ts : Str) (req : Request) : Except Str Response :=
  if req.path = [] then .error "basic_string::substr".data
  else
    let svcName := req.path.drop 1
    if svcName ≠ [] ∧ hasService svcName ctx.registry = true then
      .ok (handleServiceRequest ctx.registry req svcName)
    else if req.path = "/services".data then
      .ok (getServicesInfo ctx.registry)
    else
      match ctx.staticH with
      | some h => h req
      | none =>
        if req.path = "/".data then .ok (handleRootRequest ts)
        else .ok (routerErrorResponse ts .NotFound "Resource not found".data)

/-- RequestRouter::RouteRequestInternal. -/
def routeRequestInternal (ctx : RouterCtx) (ts : Str) (req : Request) : Except Str Response :=
  if req.method = .OPTIONS then .ok (handleOptionsRequest req)
  else if req.method = .GET then handleGetRequest ctx ts req
  else if req.method = .POST then .ok (handlePostRequest ctx.registry ts req)
  else .ok (routerErrorResponse ts .MethodNotAllowed "Method not allowed".data)

/-- RequestRouter::RouteRequest: the internal result, or a generic 500
when an exception escaped, always decorated with the CORS headers. -/
def routeRequest (ctx : RouterCtx) (ts : Str) (req : Request) : Response :=
  addCorsHeaders
    (match routeRequestInternal ctx ts req with
     | .ok r => r
     | .error _ => routerErrorResponse ts .InternalServerError "Internal Server Error".data)

/-! ### SocketServer framing -/

/-- Whether the first string is a leading segment of the second. -/
def strHasPre : Str → Str → Bool
  | [], _ => true
  | _ :: _, [] => false
  | p :: ps, c :: cs => p = c && strHasPre ps cs

/-- std::string::find of a pattern: index of its first occurrence. -/
def findSub (pat : Str) : Str → Option Nat
  | [] => if strHasPre pat [] then some 0 else none
  | c :: rest =>
    if strHasPre pat (c :: rest) then some 0
    else (findSub pat rest).map (· + 1)

/-- std::stoul on the Content-Length text, with both stoul exceptions
caught and turned into zero: skip whitespace, optional sign, require at
least one decimal digit, wrap a negated value into unsigned long range,
and treat overflow as zero. -/
def stoulModel (s : Str) : Nat :=
  let t := s.dropWhile isStreamWs
  let signed : Bool × Str :=
    match t with
    | '-' :: r => (true, r)
    | '+' :: r => (false, r)
    | r => (false, r)
  let ds := signed.2.takeWhile (fun c => 48 ≤ c.toNat && c.toNat ≤ 57)
  if ds = [] then 0
  else
    let v := ds.foldl (fun a c => a * 10 + (c.toNat - 48)) 0
    if 2 ^ 64 ≤ v then 0
    else if signed.1 then (2 ^ 64 - v) % 2 ^ 64
    else v

/-- The Content-Length scan of ReceiveData: a literal substring search
for the label over the whole accumulated buffer, then the text up to
the next line end fed to stoul; any failure leaves zero. -/
def scanContentLength (data : Str) : Nat :=
  match findSub "Content-Length: ".data data with
  | none => 0
  | some p =>
    let q := p + 16
    match findSub ['\r', '\n'] (data.drop q) with
    | none => 0
    | some r => stoulModel ((data.drop q).take r)

/-- The read loop of SocketServer::ReceiveData over the successive recv
chunks: accumulate, detect the header terminator once, then stop when
the declared body is complete, when there is no body, when the 1 MiB
ceiling is exceeded, or when the peer stops sending; the accumulated
buffer is returned in every case. -/
def receiveDataLoop : List Str → Str → Nat → Bool → Nat → Nat → Str
  | [], data, _, _, _, _ => data
  | chunk :: rest, data, total, hc, cl, hep =>
    let data2 := data ++ chunk
    let total2 := total + chunk.length
    let st2 : Bool × Nat × Nat :=
      if hc = false then
        match findSub "\r\n\r\n".data data2 with
        | some p => (true, scanContentLength data2, p + 4)
        | none => (false, cl, hep)
      else (hc, cl, hep)
    if st2.1 = true ∧ 0 < st2.2.1 ∧ st2.2.1 ≤ data2.length - st2.2.2 then data2
    else if st2.1 = true ∧ st2.2.1 = 0 then data2
    else if 1048576 < total2 then data2
    else receiveDataLoop rest data2 total2 st2.1 st2.2.1 st2.2.2

/-- SocketServer::ReceiveData. -/
def receiveData (chunks : List Str) : Str :=
  receiveDataLoop chunks [] 0 false 0 0

/-- SocketServer::HandleClient: an empty receive result closes without
a response; otherwise the handler pipeline runs on the buffer and its
serialized response is sent back. -/
def handleClient (chunks : List Str) (handler : Str → Str) : Option Str :=
  let d := receiveData chunks
  if d = [] then none else some (handler d)

/-- One recv chunk of the oversized-stream scenario: 8000 filler
bytes, within the 8191-byte recv buffer. -/
def aChunk : Str := List.replicate 8000 'a'

/-- 150 such chunks: 1.2 MB of filler with no header terminator. -/
def bigChunks : List Str := List.replicate 150 aChunk

/-- The buffer length at which the read loop of ReceiveData stops on a
stream of 8000-byte chunks without a header terminator. -/
def guardLen : Nat → Nat → Nat
  | 0, m => m
  | n + 1, m => if 1048576 < m + 8000 then m + 8000 else guardLen n (m + 8000)

/-! ### Auxiliary notions used by the theorems -/

/-- A string with a single trailing newline removed (and otherwise
unchanged): how the body loop of ParseRequest reassembles the bytes
after the blank line. -/
def stripTrailNL (s : Str) : Str :=
  if s.getLast? = some '\n' then s.dropLast else s

/-- The invariant of the std::map model: keys strictly sorted. -/
def headersSorted (m : HMap) : Prop :=
  List.Pairwise (fun a b => strLtB a.1 b.1 = true) m

/-- Strings joined with a separator between consecutive elements. -/
def joinSep (sep : Str) : List Str → Str
  | [] => []
  | [x] => x
  | x :: xs => x ++ sep ++ joinSep sep xs

/-- Header lines each terminated by CRLF, concatenated. -/
def crlfBlock : List Str → Str
  | [] => []
  | h :: t => h ++ '\r' :: '\n' :: crlfBlock t

/-- Concrete enabled service used to instantiate registry theorems. -/
def respEchoW : Response :=
  { status := .OK, headers := [], body := "echoed".data }

/-- Concrete service info whose handler returns respEchoW. -/
def svcEchoW : ServiceInfo :=
  { description := "demo".data, version := "1.0".data,
    handler := fun _ => .ok respEchoW, enabled := true }

/-- Concrete one-service registry. -/
def regW1 : Reg := [("echo".data, svcEchoW)]

/-- Concrete request aimed at the echo service. -/
def reqW1 : Request :=
  { method := .POST, path := "/service/echo".data, query_string := [],
    headers := [], body := "hi".data }

/-- Concrete OPTIONS request for the router theorems. -/
def reqOptsW : Request :=
  { method := .OPTIONS, path := "/whatever".data, query_string := [],
    headers := [], body := [] }

/-- Router context with an empty registry and no static handler. -/
def ctxEmptyW : RouterCtx := { registry := [], staticH := none }

/-- A registered service that shadows the /services listing path: its
handler answers 204 No Content. -/
def svcShadow : ServiceInfo :=
  { description := [], version := [],
    handler := fun _ => .ok { status := .NoContent, headers := [], body := [] },
    enabled := true }

/-- Registry containing a service literally named services. -/
def regShadow : Reg := [("services".data, svcShadow)]

/-- GET request for the service listing path. -/
def reqListW : Request :=
  { method := .GET, path := "/services".data, query_string := [],
    headers := [], body := [] }

/-- Concrete response carrying a preset Content-Length header. -/
def respClW : Response :=
  { status := .NotFound,
    headers := [("Content-Length".data, "3".data)],
    body := "hello".data }

/-- Concrete request parsed out of a fixed GET line, used to discharge
the parser invariant hypotheses. -/
def reqParsedW : Request :=
  { method := .GET, path := "/".data, query_string := [],
    headers := [], body := [] }

/-! ## Theorems

First, generic lemmas about the map model and the list helpers, then
one theorem per claim with its witness or counterexample. -/

theorem strLtB_irrefl (l : Str) : strLtB l l = false := by
  induction l with
  | nil => rfl
  | cons a as ih => simp [strLtB, ih]

theorem mapFind_insertSorted_self (k v : Str) (m : HMap) :
    mapFind k (insertSorted k v m) = some v := by
  induction m with
  | nil => simp [insertSorted, mapFind]
  | cons p t ih =>
    obtain ⟨k1, v1⟩ := p
    by_cases h : k = k1
    · simp [insertSorted, h, mapFind]
    · by_cases h2 : strLtB k k1 = true
      · simp [insertSorted, h, h2, mapFind]
      · simp [insertSorted, h, h2, mapFind, Ne.symm h, ih]

theorem mapFind_insertSorted_ne (k k2 v : Str) (m : HMap) (h : k2 ≠ k) :
    mapFind k2 (insertSorted k v m) = mapFind k2 m := by
  induction m with
  | nil => simp [insertSorted, mapFind, Ne.symm h]
  | cons p t ih =>
    obtain ⟨k1, v1⟩ := p
    by_cases h1 : k = k1
    · subst h1
      simp [insertSorted, mapFind, Ne.symm h]
    · by_cases h2 : strLtB k k1 = true
      · simp [insertSorted, h1, h2, mapFind, Ne.symm h]
      · simp [insertSorted, h1, h2, mapFind, ih]

theorem lookupSvc_append_self (name : Str) (info : ServiceInfo) (reg : Reg)
    (h : lookupSvc name reg = none) :
    lookupSvc name (reg ++ [(name, info)]) = some info := by
  induction reg with
  | nil => simp [lookupSvc]
  | cons p t ih =>
    obtain ⟨k1, v1⟩ := p
    by_cases h1 : k1 = name
    · simp [lookupSvc, h1] at h
    · simp [lookupSvc, h1] at h ⊢
      exact ih h

/-- C1: ServiceRegistry::HandleServiceRequest returns 404 when the
service is absent; 500 for a disabled service, independently of its
handler; the handler result when enabled and the handler returns
normally; and a generic 500 when the enabled handler throws, never
propagating the exception (the function is total). -/
theorem c1_handleServiceRequest_dispatch (reg : Reg) (req : Request) (name : Str) :
    (getService name reg = none →
      handleServiceRequest reg req name
        = svcErrorResponse .NotFound ("Service not found: ".data ++ name))
    ∧ (∀ svc, getService name reg = some svc → svc.enabled = false →
      handleServiceRequest reg req name
        = svcErrorResponse .InternalServerError ("Service disabled: ".data ++ name))
    ∧ (∀ svc r, getService name reg = some svc → svc.enabled = true →
      svc.handler req = .ok r → handleServiceRequest reg req name = r)
    ∧ (∀ svc e, getService name reg = some svc → svc.enabled = true →
      svc.handler req = .error e →
      handleServiceRequest reg req name
        = svcErrorResponse .InternalServerError "Internal service error".data) := by
  refine ⟨?_, ?_, ?_, ?_⟩
  · intro h
    simp [handleServiceRequest, h]
  · intro svc h hd
    simp [handleServiceRequest, h, hd]
  · intro svc r h he hh
    simp [handleServiceRequest, h, he, hh]
  · intro svc e h he hh
    simp [handleServiceRequest, h, he, hh]

/-- Witness for C1: the concrete enabled echo service is invoked and
its response returned. -/
theorem c1_handleServiceRequest_dispatch_witness :
    handleServiceRequest regW1 reqW1 "echo".data = respEchoW :=
  (c1_handleServiceRequest_dispatch regW1 reqW1 "echo".data).2.2.1 svcEchoW respEchoW
    rfl rfl rfl

/-- C9: ServiceRegistry::RegisterService fails on an empty or already
present name leaving the map unchanged, otherwise inserts and succeeds;
registering the same name twice fails the second time and keeps the
first registration. -/
theorem c9_registerService_contract (name : Str) (info info2 : ServiceInfo) (reg : Reg) :
    (name = [] → registerService name info reg = (false, reg))
    ∧ (∀ svc, lookupSvc name reg = some svc →
        registerService name info reg = (false, reg))
    ∧ (name ≠ [] → lookupSvc name reg = none →
        registerService name info reg = (true, reg ++ [(name, info)])
        ∧ lookupSvc name (reg ++ [(name, info)]) = some info
        ∧ registerService name info2 (reg ++ [(name, info)])
            = (false, reg ++ [(name, info)])) := by
  refine ⟨?_, ?_, ?_⟩
  · intro h
    simp [registerService, h]
  · intro svc h
    simp [registerService, h]
  · intro hne h
    have hl := lookupSvc_append_self name info reg h
    refine ⟨by simp [registerService, hne, h], hl, by simp [registerService, hne, hl]⟩

/-- Witness for C9: registering the echo service into the empty
registry succeeds, and registering it again fails without change. -/
theorem c9_registerService_contract_witness :
    registerService "echo".data svcEchoW ([] : Reg) = (true, [("echo".data, svcEchoW)])
    ∧ registerService "echo".data svcEchoW [("echo".data, svcEchoW)]
        = (false, [("echo".data, svcEchoW)]) := by
  have h := (c9_registerService_contract "echo".data svcEchoW svcEchoW []).2.2
    (by decide) rfl
  exact ⟨by simpa using h.1, by simpa using h.2.2⟩

theorem mapFind_none_countP (k : Str) (m : HMap) (h : mapFind k m = none) :
    m.countP (fun p => decide (p.1 = k)) = 0 := by
  induction m with
  | nil => rfl
  | cons p t ih =>
    obtain ⟨k1, v1⟩ := p
    by_cases h1 : k1 = k
    · simp [mapFind, h1] at h
    · simp [mapFind, h1] at h
      simp [List.countP_cons, h1, ih h]

theorem mapFind_some_countP (k v : Str) (m : HMap) (hs : headersSorted m)
    (h : mapFind k m = some v) :
    m.countP (fun p => decide (p.1 = k)) = 1 ∧ (k, v) ∈ m := by
  induction m with
  | nil => simp [mapFind] at h
  | cons p t ih =>
    obtain ⟨k1, v1⟩ := p
    rw [headersSorted, List.pairwise_cons] at hs
    by_cases h1 : k1 = k
    · subst h1
      simp [mapFind] at h
      subst h
      have hz : t.countP (fun p => decide (p.1 = k1)) = 0 := by
        rw [List.countP_eq_zero]
        intro a ha
        simp only [decide_eq_true_eq]
        intro hak
        have := hs.1 a ha
        rw [hak] at this
        rw [strLtB_irrefl] at this
        exact Bool.false_ne_true this
      refine ⟨by simp [List.countP_cons, hz], by simp⟩
    · simp [mapFind, h1] at h
      have hrec := ih (by rw [headersSorted]; exact hs.2) h
      exact ⟨by simp [List.countP_cons, h1, hrec.1], by simp [hrec.2]⟩

/-- C3: SerializeResponse injects a Content-Length equal to the exact
byte length of the body when the header map has no Content-Length
entry; a present entry is rendered as stored, exactly once, with no
second injection; the body bytes follow the blank line unchanged. -/
theorem c3_serializeResponse_contentLength (resp : Response)
    (hs : headersSorted resp.headers) :
    (mapFind clKey resp.headers = none →
      serializeResponse resp
        = statusLine resp.status ++ renderHeaders resp.headers
          ++ ("Content-Length: ".data ++ natStr resp.body.length ++ ['\r', '\n'])
          ++ ['\r', '\n'] ++ resp.body
      ∧ resp.headers.countP (fun p => decide (p.1 = clKey)) = 0)
    ∧ (∀ v, mapFind clKey resp.headers = some v →
      serializeResponse resp
        = statusLine resp.status ++ renderHeaders resp.headers ++ ['\r', '\n'] ++ resp.body
      ∧ (clKey, v) ∈ resp.headers
      ∧ resp.headers.countP (fun p => decide (p.1 = clKey)) = 1) := by
  constructor
  · intro h
    exact ⟨by simp [serializeResponse, h], mapFind_none_countP _ _ h⟩
  · intro v h
    have hc := mapFind_some_countP clKey v _ hs h
    exact ⟨by simp [serializeResponse, h], hc.2, hc.1⟩

/-- Witness for C3 at a response with a preset Content-Length of 3 and
a five-byte body: the stored header is the one emitted. -/
theorem c3_serializeResponse_contentLength_witness :
    serializeResponse respClW
      = statusLine respClW.status ++ renderHeaders respClW.headers
        ++ ['\r', '\n'] ++ respClW.body
    ∧ (clKey, "3".data) ∈ respClW.headers := by
  have h := (c3_serializeResponse_contentLength respClW
    (by rw [headersSorted]; decide)).2 "3".data rfl
  exact ⟨h.1, h.2.1⟩

theorem addCorsHeaders_find (r : Response) :
    mapFind "Access-Control-Allow-Origin".data (addCorsHeaders r).headers = some "*".data
    ∧ mapFind "Access-Control-Allow-Methods".data (addCorsHeaders r).headers
        = some "GET, POST, PUT, DELETE, OPTIONS".data
    ∧ mapFind "Access-Control-Allow-Headers".data (addCorsHeaders r).headers
        = some "Content-Type, Authorization".data := by
  unfold addCorsHeaders setHeader
  refine ⟨?_, ?_, ?_⟩
  · rw [mapFind_insertSorted_ne _ _ _ _ (by decide),
      mapFind_insertSorted_ne _ _ _ _ (by decide),
      mapFind_insertSorted_self]
  · rw [mapFind_insertSorted_ne _ _ _ _ (by decide),
      mapFind_insertSorted_self]
  · rw [mapFind_insertSorted_self]

/-- C7: RouteRequest on an OPTIONS request answers 200 with an empty
body and the four CORS headers including Access-Control-Max-Age 86400;
and on every request the returned response carries the three standard
CORS headers. -/
theorem c7_routeRequest_cors (ctx : RouterCtx) (ts : Str) (req : Request) :
    (req.method = .OPTIONS →
      routeRequest ctx ts req =
        { status := .OK,
          headers :=
            [("Access-Control-Allow-Headers".data, "Content-Type, Authorization".data),
             ("Access-Control-Allow-Methods".data, "GET, POST, PUT, DELETE, OPTIONS".data),
             ("Access-Control-Allow-Origin".data, "*".data),
             ("Access-Control-Max-Age".data, "86400".data)],
          body := [] })
    ∧ mapFind "Access-Control-Allow-Origin".data (routeRequest ctx ts req).headers
        = some "*".data
    ∧ mapFind "Access-Control-Allow-Methods".data (routeRequest ctx ts req).headers
        = some "GET, POST, PUT, DELETE, OPTIONS".data
    ∧ mapFind "Access-Control-Allow-Headers".data (routeRequest ctx ts req).headers
        = some "Content-Type, Authorization".data := by
  constructor
  · intro h
    have hstep : routeRequest ctx ts req = addCorsHeaders (handleOptionsRequest req) := by
      simp [routeRequest, routeRequestInternal, h]
    rw [hstep]
    rfl
  · have hshape : ∃ X, routeRequest ctx ts req = addCorsHeaders X := ⟨_, rfl⟩
    obtain ⟨X, hX⟩ := hshape
    rw [hX]
    exact addCorsHeaders_find X

/-- Witness for C7 at a concrete OPTIONS request. -/
theorem c7_routeRequest_cors_witness :
    routeRequest ctxEmptyW [] reqOptsW =
      { status := .OK,
        headers :=
          [("Access-Control-Allow-Headers".data, "Content-Type, Authorization".data),
           ("Access-Control-Allow-Methods".data, "GET, POST, PUT, DELETE, OPTIONS".data),
           ("Access-Control-Allow-Origin".data, "*".data),
           ("Access-Control-Max-Age".data, "86400".data)],
        body := [] } :=
  (c7_routeRequest_cors ctxEmptyW [] reqOptsW).1 rfl

theorem joinSep_cons_ne_nil (sep x : Str) (xs : List Str) (h : xs ≠ []) :
    joinSep sep (x :: xs) = x ++ sep ++ joinSep sep xs := by
  cases xs with
  | nil => exact absurd rfl h
  | cons y ys => rfl

theorem svcEntriesLoop_false_eq (t : Reg) (h : t ≠ []) :
    svcEntriesLoop t false = ",\n".data ++ svcEntriesLoop t true := by
  cases t with
  | nil => exact absurd rfl h
  | cons p r =>
    obtain ⟨n, i⟩ := p
    simp [svcEntriesLoop]

theorem svcEntriesLoop_eq_joinSep (reg : Reg) :
    svcEntriesLoop reg true
      = joinSep ",\n".data (reg.map (fun p => svcEntryJson p.1 p.2)) := by
  induction reg with
  | nil => rfl
  | cons p t ih =>
    obtain ⟨n, i⟩ := p
    cases t with
    | nil => simp [svcEntriesLoop, joinSep]
    | cons q r =>
      have hne : (q :: r : Reg) ≠ [] := by simp
      have hl : svcEntriesLoop ((n, i) :: q :: r) true
          = svcEntryJson n i ++ svcEntriesLoop (q :: r) false := by
        simp [svcEntriesLoop]
      rw [hl, svcEntriesLoop_false_eq _ hne, ih]
      have hj : joinSep ",\n".data (((n, i) :: q :: r).map (fun p => svcEntryJson p.1 p.2))
          = svcEntryJson n i ++ ",\n".data
            ++ joinSep ",\n".data ((q :: r).map (fun p => svcEntryJson p.1 p.2)) := by
        rw [List.map_cons]
        exact joinSep_cons_ne_nil _ _ _ (by simp)
      rw [hj]
      simp [List.append_assoc]

/-- C8 (amended): for every registry state with no service registered
under the name services, RouteRequest on GET /services answers the
registry snapshot: 200 with the GetServicesInfo JSON body listing one
object per registered service plus the total count. -/
theorem c8_services_listing (ctx : RouterCtx) (ts : Str) (req : Request)
    (hm : req.method = .GET) (hp : req.path = "/services".data)
    (hno : lookupSvc "services".data ctx.registry = none) :
    routeRequest ctx ts req = addCorsHeaders (getServicesInfo ctx.registry)
    ∧ (routeRequest ctx ts req).status = .OK
    ∧ (routeRequest ctx ts req).body = servicesJson ctx.registry
    ∧ servicesJson ctx.registry
        = "\x7b\n  \"services\": [\n".data
          ++ joinSep ",\n".data (ctx.registry.map (fun p => svcEntryJson p.1 p.2))
          ++ "\n  ],\n  \"total\": ".data ++ natStr ctx.registry.length ++ "\n\x7d".data := by
  have hint : routeRequestInternal ctx ts req = .ok (getServicesInfo ctx.registry) := by
    simp [routeRequestInternal, hm, handleGetRequest, hp, hasService, hno]
  have hroute : routeRequest ctx ts req = addCorsHeaders (getServicesInfo ctx.registry) := by
    simp [routeRequest, hint]
  refine ⟨hroute, by rw [hroute]; rfl, by rw [hroute]; rfl, ?_⟩
  rw [servicesJson, svcEntriesLoop_eq_joinSep]

/-- Witness for C8 on the empty registry. -/
theorem c8_services_listing_witness :
    routeRequest ctxEmptyW [] reqListW = addCorsHeaders (getServicesInfo [])
    ∧ (routeRequest ctxEmptyW [] reqListW).status = .OK :=
  have h := c8_services_listing ctxEmptyW [] reqListW rfl rfl rfl
  ⟨h.1, h.2.1⟩

/-- Counterexample for C8 as stated: with a service literally named
services registered, GET /services invokes that service instead of the
listing, here answering 204 rather than 200. -/
theorem c8_services_listing_counterexample :
    (routeRequest { registry := regShadow, staticH := none } [] reqListW).status
      = .NoContent
    ∧ statusToInt (routeRequest { registry := regShadow, staticH := none } [] reqListW).status
      = 204
    ∧ (.NoContent : StatusCode) ≠ .OK := by
  exact ⟨rfl, rfl, by decide⟩

theorem strHasPre_crlf2_all_a (s : Str) (h : ∀ c ∈ s, c = 'a') :
    strHasPre "\r\n\r\n".data s = false := by
  cases s with
  | nil => rfl
  | cons c t =>
    have hc : c = 'a' := h c (List.mem_cons_self c t)
    subst hc
    rfl

theorem findSub_crlf2_all_a (s : Str) (h : ∀ c ∈ s, c = 'a') :
    findSub "\r\n\r\n".data s = none := by
  induction s with
  | nil => rfl
  | cons c t ih =>
    have ht : ∀ x ∈ t, x = 'a' := fun x hx => h x (List.mem_cons_of_mem c hx)
    simp [findSub, strHasPre_crlf2_all_a _ h, ih ht]

theorem receiveDataLoop_all_a (n : Nat) :
    ∀ m, m ≤ 1048576 → 1048576 < m + 8000 * n →
    receiveDataLoop (List.replicate n aChunk) (List.replicate m 'a') m false 0 0
      = List.replicate (guardLen n m) 'a' := by
  induction n with
  | zero => intro m hm hg; omega
  | succ k ih =>
    intro m hm hg
    rw [List.replicate_succ]
    have hdata : List.replicate m 'a' ++ aChunk = List.replicate (m + 8000) 'a' := by
      rw [aChunk, ← List.replicate_add]
    have hfind : findSub "\r\n\r\n".data (List.replicate m 'a' ++ aChunk) = none := by
      apply findSub_crlf2_all_a
      intro c hc
      rcases List.mem_append.mp hc with h1 | h1
      · exact (List.eq_of_mem_replicate h1)
      · rw [aChunk] at h1
        exact (List.eq_of_mem_replicate h1)
    have hlen : aChunk.length = 8000 := by rw [aChunk, List.length_replicate]
    rw [receiveDataLoop]
    simp only [hfind, hlen]
    by_cases hguard : 1048576 < m + 8000
    · rw [if_neg (by simp), if_neg (by simp), if_pos hguard, hdata]
      rw [guardLen, if_pos hguard]
    · rw [if_neg (by simp), if_neg (by simp), if_neg hguard, hdata]
      rw [guardLen, if_neg hguard]
      exact ih (m + 8000) (by omega) (by omega)

theorem guardLen_gt (n : Nat) :
    ∀ m, m ≤ 1048576 → 1048576 < m + 8000 * n → 1048576 < guardLen n m := by
  induction n with
  | zero => intro m hm hg; omega
  | succ k ih =>
    intro m hm hg
    rw [guardLen]
    by_cases hguard : 1048576 < m + 8000
    · rw [if_pos hguard]; exact hguard
    · rw [if_neg hguard]
      exact ih (m + 8000) (by omega) (by omega)

/-- C2 (behaviour at the failing input of the size-guard claim): on a
1.2 MB stream of filler with no header terminator, ReceiveData returns
the accumulated oversized buffer once the 1 MiB ceiling is crossed,
and HandleClient then invokes the handler pipeline on it and sends the
handler response back, instead of aborting with no response. -/
theorem c2_sizeGuard_still_invokes_handler :
    1048576 < (receiveData bigChunks).length
    ∧ handleClient bigChunks (fun d => d) = some (receiveData bigChunks)
    ∧ handleClient bigChunks (fun d => d) ≠ none := by
  have hrec : receiveData bigChunks = List.replicate (guardLen 150 0) 'a' := by
    have h := receiveDataLoop_all_a 150 0 (by norm_num) (by norm_num)
    simpa [receiveData, bigChunks] using h
  have hgt : 1048576 < guardLen 150 0 := guardLen_gt 150 0 (by norm_num) (by norm_num)
  have hlen : 1048576 < (receiveData bigChunks).length := by
    rw [hrec, List.length_replicate]; exact hgt
  have hne : receiveData bigChunks ≠ [] := by
    intro h
    rw [h] at hlen
    simp at hlen
  have hcl : handleClient bigChunks (fun d => d) = some (receiveData bigChunks) := by
    show (if receiveData bigChunks = [] then (none : Option Str)
          else some ((fun d => d) (receiveData bigChunks)))
        = some (receiveData bigChunks)
    rw [if_neg hne]
  refine ⟨hlen, hcl, ?_⟩
  rw [hcl]
  simp

theorem notWs_ne_nl (c : Char) (h : isStreamWs c = false) : c ≠ '\n' := by
  intro hc
  subst hc
  exact absurd h (by decide)

theorem cppLinesGo_noNL (s : Str) : ∀ acc, (∀ c ∈ s, c ≠ '\n') →
    cppLinesGo acc s = [acc.reverse ++ s] := by
  induction s with
  | nil => intro acc _; simp [cppLinesGo]
  | cons c t ih =>
    intro acc h
    have hc : c ≠ '\n' := h c (List.mem_cons_self c t)
    rw [cppLinesGo, if_neg hc, ih (c :: acc) (fun x hx => h x (List.mem_cons_of_mem c hx))]
    simp

theorem cppLinesGo_append (A : Str) : ∀ acc (B : Str), (∀ c ∈ A, c ≠ '\n') → B ≠ [] →
    cppLinesGo acc (A ++ '\n' :: B) = (acc.reverse ++ A) :: cppLinesGo [] B := by
  induction A with
  | nil =>
    intro acc B _ hB
    cases B with
    | nil => exact absurd rfl hB
    | cons b bs => simp [cppLinesGo]
  | cons a t ih =>
    intro acc B h hB
    have ha : a ≠ '\n' := h a (List.mem_cons_self a t)
    rw [List.cons_append, cppLinesGo, if_neg ha,
      ih (a :: acc) B (fun x hx => h x (List.mem_cons_of_mem a hx)) hB]
    simp

theorem cppLinesGo_append_nil (A : Str) : ∀ acc, (∀ c ∈ A, c ≠ '\n') →
    cppLinesGo acc (A ++ ['\n']) = [acc.reverse ++ A] := by
  induction A with
  | nil => intro acc _; simp [cppLinesGo]
  | cons a t ih =>
    intro acc h
    have ha : a ≠ '\n' := h a (List.mem_cons_self a t)
    rw [List.cons_append, cppLinesGo, if_neg ha,
      ih (a :: acc) (fun x hx => h x (List.mem_cons_of_mem a hx))]
    simp

theorem cppLines_noNL (s : Str) (h1 : s ≠ []) (h2 : ∀ c ∈ s, c ≠ '\n') :
    cppLines s = [s] := by
  rw [cppLines, if_neg h1, cppLinesGo_noNL s [] h2]
  simp

theorem cppLines_crlf_cons (A T : Str) (hA : ∀ c ∈ A, c ≠ '\n') :
    cppLines (A ++ '\r' :: '\n' :: T) = (A ++ ['\r']) :: cppLines T := by
  have hA2 : ∀ c ∈ A ++ ['\r'], c ≠ '\n' := by
    intro c hc
    rcases List.mem_append.mp hc with h | h
    · exact hA c h
    · simp at h
      subst h
      decide
  have hform : A ++ '\r' :: '\n' :: T = (A ++ ['\r']) ++ '\n' :: T := by
    simp [List.append_assoc]
  have hne : A ++ '\r' :: '\n' :: T ≠ [] := by simp
  cases T with
  | nil =>
    rw [cppLines, if_neg hne, hform, cppLinesGo_append_nil (A ++ ['\r']) [] hA2]
    simp [cppLines]
  | cons t ts =>
    rw [cppLines, if_neg hne, hform, cppLinesGo_append (A ++ ['\r']) [] (t :: ts) hA2 (by simp)]
    simp [cppLines]

theorem chomp_concat_cr (A : Str) : chomp (A ++ ['\r']) = A := by
  rw [chomp, if_pos (by rw [List.getLast?_concat]), List.dropLast_concat]

theorem chomp_of_last_ne (l : Str) (c : Char) (h : l.getLast? = some c) (hc : c ≠ '\r') :
    chomp l = l := by
  rw [chomp, if_neg]
  rw [h]
  simp [hc]

theorem getLast?_append_some (X Y : Str) (c : Char) (h : Y.getLast? = some c) :
    (X ++ Y).getLast? = some c := by
  rw [List.getLast?_append, h]
  rfl

theorem getLast?_cons_some (x : Char) (Y : Str) (c : Char) (h : Y.getLast? = some c) :
    (x :: Y).getLast? = some c := by
  have : x :: Y = [x] ++ Y := rfl
  rw [this]
  exact getLast?_append_some [x] Y c h

theorem tokenizeGo_token (A : Str) : ∀ (cur B : Str), (∀ c ∈ A, isStreamWs c = false) →
    (cur ≠ [] ∨ A ≠ []) →
    tokenizeGo cur (A ++ ' ' :: B) = (cur.reverse ++ A) :: tokenizeGo [] B := by
  induction A with
  | nil =>
    intro cur B _ hne
    have hcur : cur ≠ [] := hne.resolve_right (fun h => h rfl)
    rw [List.nil_append, tokenizeGo, if_pos (by decide), if_neg hcur]
    simp
  | cons a t ih =>
    intro cur B h _
    have ha : isStreamWs a = false := h a (List.mem_cons_self a t)
    rw [List.cons_append, tokenizeGo, if_neg (by simp [ha]),
      ih (a :: cur) B (fun x hx => h x (List.mem_cons_of_mem a hx)) (Or.inl (by simp))]
    simp

theorem findCharIdx_not_mem (c : Char) (A : Str) (h : c ∉ A) :
    findCharIdx c A = none := by
  induction A with
  | nil => rfl
  | cons x t ih =>
    have hx : x ≠ c := fun hxc => h (hxc ▸ List.mem_cons_self x t)
    rw [findCharIdx, if_neg hx, ih (fun hm => h (List.mem_cons_of_mem x hm))]
    rfl

theorem findCharIdx_append_self (c : Char) (A B : Str) (h : c ∉ A) :
    findCharIdx c (A ++ c :: B) = some A.length := by
  induction A with
  | nil => simp [findCharIdx]
  | cons x t ih =>
    have hx : x ≠ c := fun hxc => h (hxc ▸ List.mem_cons_self x t)
    rw [List.cons_append, findCharIdx, if_neg hx,
      ih (fun hm => h (List.mem_cons_of_mem x hm))]
    simp

theorem drop_len_cons (A : Str) (x : Char) (B : Str) :
    (A ++ x :: B).drop (A.length + 1) = B := by
  induction A with
  | nil => simp
  | cons a t ih => simp [ih]

theorem parseQueryParameters_with_query (P Q : Str) (h : '?' ∉ P) :
    parseQueryParameters (P ++ '?' :: Q) = (urlDecode P, Q) := by
  rw [parseQueryParameters, findCharIdx_append_self '?' P Q h]
  show (urlDecode ((P ++ '?' :: Q).take P.length), (P ++ '?' :: Q).drop (P.length + 1))
      = (urlDecode P, Q)
  rw [List.take_left, drop_len_cons]

theorem parseQueryParameters_no_query (P : Str) (h : '?' ∉ P) :
    parseQueryParameters P = (urlDecode P, []) := by
  rw [parseQueryParameters, findCharIdx_not_mem '?' P h]

theorem parseMethod_some_ne_nil (M : Str) (m : Method) (h : parseMethod M = some m) :
    M ≠ [] := by
  intro hM
  subst hM
  exact Option.noConfusion h

theorem parseMethod_some_ne_unknown (M : Str) (m : Method) (h : parseMethod M = some m) :
    m ≠ Method.UNKNOWN := by
  rw [parseMethod] at h
  split_ifs at h <;>
    first
    | exact Option.noConfusion h
    | (injection h with h2; subst h2; decide)

theorem stripTrailNL_cons (c : Char) (t : Str) (h : t ≠ []) :
    stripTrailNL (c :: t) = c :: stripTrailNL t := by
  cases t with
  | nil => exact absurd rfl h
  | cons b bs =>
    rw [stripTrailNL, stripTrailNL, List.getLast?_cons_cons]
    by_cases hg : (b :: bs).getLast? = some '\n'
    · rw [if_pos hg, if_pos hg]
      rfl
    · rw [if_neg hg, if_neg hg]

theorem joinNL_cons_ne (x : Str) (L : List Str) (h : L ≠ []) :
    joinNL (x :: L) = x ++ '\n' :: joinNL L := by
  cases L with
  | nil => exact absurd rfl h
  | cons y ys => rfl

theorem cppLinesGo_ne_nil (s : Str) : ∀ acc, cppLinesGo acc s ≠ [] := by
  induction s with
  | nil => intro acc; simp [cppLinesGo]
  | cons c t ih =>
    intro acc
    rw [cppLinesGo]
    by_cases hc : c = '\n'
    · rw [if_pos hc]
      by_cases ht : t = []
      · rw [if_pos ht]; simp
      · rw [if_neg ht]; simp
    · rw [if_neg hc]
      exact ih (c :: acc)

theorem joinNL_cppLinesGo (s : Str) : ∀ acc,
    joinNL (cppLinesGo acc s) = acc.reverse ++ stripTrailNL s := by
  induction s with
  | nil =>
    intro acc
    simp [cppLinesGo, joinNL, stripTrailNL]
  | cons c t ih =>
    intro acc
    rw [cppLinesGo]
    by_cases hc : c = '\n'
    · subst hc
      rw [if_pos rfl]
      cases t with
      | nil =>
        rw [if_pos rfl]
        simp [joinNL, stripTrailNL]
      | cons b bs =>
        rw [if_neg (by simp)]
        rw [joinNL_cons_ne _ _ (cppLinesGo_ne_nil (b :: bs) []), ih []]
        rw [stripTrailNL_cons '\n' (b :: bs) (by simp)]
        simp
    · rw [if_neg hc, ih (c :: acc)]
      cases t with
      | nil =>
        have h1 : stripTrailNL [c] = [c] := by
          rw [stripTrailNL, if_neg (by simp [hc])]
        have h0 : stripTrailNL [] = ([] : Str) := rfl
        rw [h0, h1]
        simp
      | cons b bs =>
        rw [stripTrailNL_cons c (b :: bs) (by simp)]
        simp

theorem joinNL_cppLines (T : Str) : joinNL (cppLines T) = stripTrailNL T := by
  cases T with
  | nil => rfl
  | cons c t =>
    rw [cppLines, if_neg (by simp), joinNL_cppLinesGo (c :: t) []]
    rfl

theorem parseHeadersGo_step (H : Str) (h : HMap) (rest : List Str) (hne : H ≠ []) :
    parseHeadersGo h ((H ++ ['\r']) :: rest) = parseHeadersGo (parseHeaderLine H h) rest := by
  rw [parseHeadersGo]
  simp only [chomp_concat_cr]
  rw [if_neg hne]

theorem parseHeadersGo_blank (h : HMap) (rest : List Str) :
    parseHeadersGo h (['\r'] :: rest) = (h, rest) := rfl

theorem parseHeadersGo_block (Hs : List Str) : ∀ (h : HMap) (L : List Str),
    (∀ H ∈ Hs, H ≠ []) →
    parseHeadersGo h (Hs.map (fun H => H ++ ['\r']) ++ ['\r'] :: L)
      = (Hs.foldl (fun a H => parseHeaderLine H a) h, L) := by
  induction Hs with
  | nil => intro h L _; simp [parseHeadersGo_blank]
  | cons H t ih =>
    intro h L hH
    rw [List.map_cons, List.cons_append,
      parseHeadersGo_step H h _ (hH H (List.mem_cons_self H t)),
      ih (parseHeaderLine H h) L (fun x hx => hH x (List.mem_cons_of_mem H hx))]
    rfl

theorem lines_decomp (Hs : List Str) (T : Str)
    (hHs : ∀ H ∈ Hs, (∀ c ∈ H, c ≠ '\n') ∧ H ≠ []) :
    cppLines (crlfBlock Hs ++ '\r' :: '\n' :: T)
      = Hs.map (fun H => H ++ ['\r']) ++ ['\r'] :: cppLines T := by
  induction Hs with
  | nil =>
    have := cppLines_crlf_cons [] T (by simp)
    simpa [crlfBlock] using this
  | cons H t ih =>
    have hH := hHs H (List.mem_cons_self H t)
    have hform : crlfBlock (H :: t) ++ '\r' :: '\n' :: T
        = H ++ '\r' :: '\n' :: (crlfBlock t ++ '\r' :: '\n' :: T) := by
      rw [crlfBlock]
      simp [List.append_assoc]
    rw [hform, cppLines_crlf_cons H _ hH.1,
      ih (fun x hx => hHs x (List.mem_cons_of_mem H hx))]
    rfl

theorem hexDigitVal_facts (c : Char) (v : Nat) (h : hexDigitVal c = some v) :
    isStreamWs c = false ∧ c ≠ '+' ∧ c ≠ '-' ∧ v ≤ 15 := by
  have hplus : ('+').toNat = 43 := rfl
  have hminus : ('-').toNat = 45 := rfl
  rw [hexDigitVal] at h
  split_ifs at h with h1 h2 h3 <;> injection h with hv <;> subst hv
  · refine ⟨?_, ?_, ?_, by omega⟩
    · simp only [isStreamWs]
      simp only [Bool.or_eq_false_iff, decide_eq_false_iff_not]
      omega
    · intro hEq; rw [hEq, hplus] at h1; omega
    · intro hEq; rw [hEq, hminus] at h1; omega
  · refine ⟨?_, ?_, ?_, by omega⟩
    · simp only [isStreamWs]
      simp only [Bool.or_eq_false_iff, decide_eq_false_iff_not]
      omega
    · intro hEq; rw [hEq, hplus] at h2; omega
    · intro hEq; rw [hEq, hminus] at h2; omega
  · refine ⟨?_, ?_, ?_, by omega⟩
    · simp only [isStreamWs]
      simp only [Bool.or_eq_false_iff, decide_eq_false_iff_not]
      omega
    · intro hEq; rw [hEq, hplus] at h3; omega
    · intro hEq; rw [hEq, hminus] at h3; omega

theorem hexParse2_two_digits (c1 c2 : Char) (v1 v2 : Nat)
    (h1 : hexDigitVal c1 = some v1) (h2 : hexDigitVal c2 = some v2) :
    hexParse2 c1 c2 = some (Int.ofNat (16 * v1 + v2)) := by
  have f1 := hexDigitVal_facts c1 v1 h1
  rw [hexParse2, if_neg (by simp [f1.1]), if_neg f1.2.1, if_neg f1.2.2.1, h1, h2]

theorem urlDecode_two_hex (c1 c2 : Char) (v1 v2 : Nat) (rest : Str)
    (h1 : hexDigitVal c1 = some v1) (h2 : hexDigitVal c2 = some v2) :
    urlDecode ('%' :: c1 :: c2 :: rest) = Char.ofNat (16 * v1 + v2) :: urlDecode rest := by
  have hu : urlDecode ('%' :: c1 :: c2 :: rest)
      = (match hexParse2 c1 c2 with
         | some v => byteChar v :: urlDecode rest
         | none => '%' :: urlDecode (c1 :: c2 :: rest)) := rfl
  rw [hu, hexParse2_two_digits c1 c2 v1 v2 h1 h2]
  show byteChar (Int.ofNat (16 * v1 + v2)) :: urlDecode rest = _
  rw [byteChar]
  have b1 := (hexDigitVal_facts c1 v1 h1).2.2.2
  have b2 := (hexDigitVal_facts c2 v2 h2).2.2.2
  have hm : (Int.ofNat (16 * v1 + v2)) % 256 = Int.ofNat ((16 * v1 + v2) % 256) := by
    simp [Int.ofNat_emod]
  have ht : (Int.ofNat ((16 * v1 + v2) % 256)).toNat = (16 * v1 + v2) % 256 := rfl
  rw [hm, ht, Nat.mod_eq_of_lt (by omega)]

theorem parseRequest_single_line (M U : Str) (m : Method)
    (hM : parseMethod M = some m)
    (hMw : ∀ c ∈ M, isStreamWs c = false)
    (hUw : ∀ c ∈ U, isStreamWs c = false)
    (hU : U ≠ []) :
    parseRequest (M ++ ' ' :: (U ++ ' ' :: "HTTP/1.1".data))
      = some { method := m, path := (parseQueryParameters U).1,
               query_string := (parseQueryParameters U).2, headers := [], body := [] } := by
  have hMne : M ≠ [] := parseMethod_some_ne_nil M m hM
  have hne : M ++ ' ' :: (U ++ ' ' :: "HTTP/1.1".data) ≠ [] := by simp
  have hV : ∀ x ∈ "HTTP/1.1".data, x ≠ '\n' := by decide
  have hnoNL : ∀ c ∈ M ++ ' ' :: (U ++ ' ' :: "HTTP/1.1".data), c ≠ '\n' := by
    intro c hc
    rcases List.mem_append.mp hc with h | h
    · exact notWs_ne_nl c (hMw c h)
    · rcases List.mem_cons.mp h with h | h
      · subst h; decide
      · rcases List.mem_append.mp h with h | h
        · exact notWs_ne_nl c (hUw c h)
        · rcases List.mem_cons.mp h with h | h
          · subst h; decide
          · exact hV c h
  have hlines : cppLines (M ++ ' ' :: (U ++ ' ' :: "HTTP/1.1".data))
      = [M ++ ' ' :: (U ++ ' ' :: "HTTP/1.1".data)] := cppLines_noNL _ hne hnoNL
  have hlast : (M ++ ' ' :: (U ++ ' ' :: "HTTP/1.1".data)).getLast? = some '1' := by
    apply getLast?_append_some
    apply getLast?_cons_some
    apply getLast?_append_some
    apply getLast?_cons_some
    decide
  have hchomp : chomp (M ++ ' ' :: (U ++ ' ' :: "HTTP/1.1".data))
      = M ++ ' ' :: (U ++ ' ' :: "HTTP/1.1".data) :=
    chomp_of_last_ne _ '1' hlast (by decide)
  have htokV : tokenizeGo [] "HTTP/1.1".data = ["HTTP/1.1".data] := by decide
  have htoks : tokenizeWs (M ++ ' ' :: (U ++ ' ' :: "HTTP/1.1".data))
      = [M, U, "HTTP/1.1".data] := by
    rw [tokenizeWs, tokenizeGo_token M [] _ hMw (Or.inr hMne),
      tokenizeGo_token U [] _ hUw (Or.inr hU), htokV]
    simp
  have hline : parseRequestLine (M ++ ' ' :: (U ++ ' ' :: "HTTP/1.1".data))
      = some (m, (parseQueryParameters U).1, (parseQueryParameters U).2) := by
    rw [parseRequestLine, htoks]
    show (parseMethod M).map _ = _
    rw [hM]
    rfl
  rw [parseRequest, if_neg hne, hlines]
  show (match parseRequestLine (chomp (M ++ ' ' :: (U ++ ' ' :: "HTTP/1.1".data))) with
        | none => none
        | some (m2, p, q) =>
          some { method := m2, path := p, query_string := q,
                 headers := (parseHeadersGo [] []).1,
                 body := joinNL (parseHeadersGo [] []).2 } : Option Request) = _
  rw [hchomp, hline]
  rfl

theorem parseRequest_cons_lines (raw first : Str) (rest : List Str)
    (h1 : raw ≠ []) (h2 : cppLines raw = first :: rest) :
    parseRequest raw
      = (match parseRequestLine (chomp first) with
         | none => none
         | some (m, p, q) =>
           some { method := m, path := p, query_string := q,
                  headers := (parseHeadersGo [] rest).1,
                  body := joinNL (parseHeadersGo [] rest).2 }) := by
  rw [parseRequest, if_neg h1, h2]

/-- C4 (amended): ParseRequest on empty input fails, and every request
it returns has a method from the closed set, never UNKNOWN; the path of
a returned request may however be empty (see the counterexample), so
only the method half of the well-formedness invariant holds. -/
theorem c4_parse_wellformed_method (raw : Str) :
    parseRequest [] = none
    ∧ (∀ r, parseRequest raw = some r → r.method ≠ Method.UNKNOWN) := by
  refine ⟨rfl, ?_⟩
  intro r h
  by_cases hraw : raw = []
  · rw [hraw] at h
    exact Option.noConfusion h
  · rcases hcl : cppLines raw with _ | ⟨first, rest⟩
    · rw [parseRequest, if_neg hraw, hcl] at h
      exact Option.noConfusion h
    · rw [parseRequest_cons_lines raw first rest hraw hcl] at h
      rcases hrl : parseRequestLine (chomp first) with _ | ⟨m, p, q⟩ <;> rw [hrl] at h
      · exact Option.noConfusion h
      · injection h with h2
        subst h2
        rw [parseRequestLine] at hrl
        rcases htk : tokenizeWs (chomp first) with _ | ⟨a, _ | ⟨b, _ | ⟨c, rest2⟩⟩⟩ <;>
          rw [htk] at hrl <;> try exact Option.noConfusion hrl
        rcases Option.map_eq_some'.mp hrl with ⟨m2, hm2, hEq⟩
        have hmm : m2 = m := congrArg Prod.fst hEq
        subst hmm
        exact parseMethod_some_ne_unknown a m2 hm2

/-- Counterexample for C4 as stated: the request line GET ?a HTTP/1.1
parses successfully, yet its path is empty, so a malformed request does
reach the router. -/
theorem c4_parse_wellformed_method_counterexample :
    (parseRequest "GET ?a HTTP/1.1".data).map Request.path = some []
    ∧ (parseRequest "GET ?a HTTP/1.1".data).isSome = true := by
  constructor
  · decide
  · decide

/-- Witness for C4: a well-formed GET line parses to reqParsedW, whose
method is not UNKNOWN by the theorem. -/
theorem c4_parse_wellformed_method_witness :
    parseRequest "GET / HTTP/1.1".data = some reqParsedW
    ∧ reqParsedW.method ≠ Method.UNKNOWN :=
  ⟨by decide,
   (c4_parse_wellformed_method "GET / HTTP/1.1".data).2 reqParsedW (by decide)⟩

/-- C5: a valid request line METHOD PATH?QUERY HTTP/1.1 parses to the
percent-decoding of PATH as path and the raw QUERY as query string;
without a question mark the query is empty and the whole URL is the
decoded path; the decoding maps a two-hex-digit escape to the denoted
byte, plus to space, passes other characters through, and keeps a
malformed trailing escape literal. -/
theorem c5_requestLine_roundtrip (M P Q : Str) (m : Method)
    (hM : parseMethod M = some m)
    (hMw : ∀ c ∈ M, isStreamWs c = false)
    (hPw : ∀ c ∈ P, isStreamWs c = false)
    (hQw : ∀ c ∈ Q, isStreamWs c = false)
    (hPq : '?' ∉ P) (hP : P ≠ []) :
    parseRequest (M ++ ' ' :: ((P ++ '?' :: Q) ++ ' ' :: "HTTP/1.1".data))
      = some { method := m, path := urlDecode P, query_string := Q,
               headers := [], body := [] }
    ∧ parseRequest (M ++ ' ' :: (P ++ ' ' :: "HTTP/1.1".data))
      = some { method := m, path := urlDecode P, query_string := [],
               headers := [], body := [] }
    ∧ (∀ c1 c2 v1 v2 rest, hexDigitVal c1 = some v1 → hexDigitVal c2 = some v2 →
        urlDecode ('%' :: c1 :: c2 :: rest) = Char.ofNat (16 * v1 + v2) :: urlDecode rest)
    ∧ (∀ rest, urlDecode ('+' :: rest) = ' ' :: urlDecode rest)
    ∧ (∀ c rest, c ≠ '%' → c ≠ '+' → urlDecode (c :: rest) = c :: urlDecode rest)
    ∧ urlDecode ['%'] = ['%']
    ∧ (∀ c, urlDecode ['%', c] = '%' :: urlDecode [c]) := by
  refine ⟨?_, ?_, urlDecode_two_hex, fun rest => rfl, ?_, rfl, fun c => rfl⟩
  · have hUw : ∀ c ∈ P ++ '?' :: Q, isStreamWs c = false := by
      intro c hc
      simp only [List.mem_append, List.mem_cons] at hc
      rcases hc with h | h | h
      · exact hPw c h
      · subst h; decide
      · exact hQw c h
    rw [parseRequest_single_line M (P ++ '?' :: Q) m hM hMw hUw (by simp),
      parseQueryParameters_with_query P Q hPq]
  · rw [parseRequest_single_line M P m hM hMw hPw hP,
      parseQueryParameters_no_query P hPq]
  · intro c rest hc hc2
    rw [urlDecode.eq_def]
    split
    · simp_all
    · simp_all
    · simp_all
    · simp_all

/-- Witness for C5: the line GET /a%20b?x=1 HTTP/1.1 parses with the
decoded path and raw query. -/
theorem c5_requestLine_roundtrip_witness :
    parseRequest ("GET".data ++ ' ' :: (("/a%20b".data ++ '?' :: "x=1".data)
        ++ ' ' :: "HTTP/1.1".data))
      = some { method := .GET, path := urlDecode "/a%20b".data,
               query_string := "x=1".data, headers := [], body := [] }
    ∧ urlDecode "/a%20b".data = "/a b".data :=
  ⟨(c5_requestLine_roundtrip "GET".data "/a%20b".data "x=1".data .GET
      (by decide) (by decide) (by decide) (by decide) (by decide) (by decide)).1,
   by decide⟩

/-- C6 (amended): for a request whose header block ends with a CRLF
blank line, the parsed body is the byte sequence following that blank
line except that one trailing newline byte, when present, is removed
by the line-joining body loop; it is not always the tail verbatim (see
the counterexample). -/
theorem c6_body_after_blank (F : Str) (Hs : List Str) (T : Str)
    (hF : ∀ c ∈ F, c ≠ '\n')
    (hHs : ∀ H ∈ Hs, (∀ c ∈ H, c ≠ '\n') ∧ H ≠ []) :
    (parseRequest (F ++ '\r' :: '\n' :: (crlfBlock Hs ++ '\r' :: '\n' :: T))).map Request.body
      = (parseRequestLine F).map (fun _ => stripTrailNL T) := by
  have hne : F ++ '\r' :: '\n' :: (crlfBlock Hs ++ '\r' :: '\n' :: T) ≠ [] := by simp
  have hlines : cppLines (F ++ '\r' :: '\n' :: (crlfBlock Hs ++ '\r' :: '\n' :: T))
      = (F ++ ['\r']) :: (Hs.map (fun H => H ++ ['\r']) ++ ['\r'] :: cppLines T) := by
    rw [cppLines_crlf_cons F _ hF, lines_decomp Hs T hHs]
  rw [parseRequest_cons_lines _ _ _ hne hlines, chomp_concat_cr]
  have hblock := parseHeadersGo_block Hs [] (cppLines T) (fun H hH => (hHs H hH).2)
  rcases hrl : parseRequestLine F with _ | ⟨m, p, q⟩
  · rfl
  · show some (joinNL (parseHeadersGo []
        (Hs.map (fun H => H ++ ['\r']) ++ ['\r'] :: cppLines T)).2)
      = some (stripTrailNL T)
    rw [hblock]
    show some (joinNL (cppLines T)) = some (stripTrailNL T)
    rw [joinNL_cppLines]

/-- Witness for C6 at a concrete request with one header and the body
tail ab-newline, whose parsed body is ab. -/
theorem c6_body_after_blank_witness :
    (parseRequest ("GET / HTTP/1.1".data ++ '\r' :: '\n' ::
        (crlfBlock ["Host: h".data] ++ '\r' :: '\n' :: "ab\n".data))).map Request.body
      = (parseRequestLine "GET / HTTP/1.1".data).map (fun _ => stripTrailNL "ab\n".data)
    ∧ stripTrailNL "ab\n".data = "ab".data :=
  ⟨c6_body_after_blank "GET / HTTP/1.1".data ["Host: h".data] "ab\n".data
    (by decide) (by decide), by decide⟩

/-- Counterexample for C6 as stated: the bytes following the first
blank line are ab-newline, but the parsed body is ab, so the body is
not taken verbatim byte for byte. -/
theorem c6_body_after_blank_counterexample :
    "GET / HTTP/1.1\r\n\r\nab\n".data
      = "GET / HTTP/1.1".data ++ '\r' :: '\n' :: ('\r' :: '\n' :: "ab\n".data)
    ∧ (parseRequest "GET / HTTP/1.1\r\n\r\nab\n".data).map Request.body = some "ab".data
    ∧ "ab".data ≠ "ab\n".data := by
  refine ⟨by decide, by decide, by decide⟩

/-- C10: a header-section line without a colon is silently skipped: it
adds no entry to the header map, the parse does not fail because of it,
and the rest of the headers and the body parse exactly as if the line
were absent. -/
theorem c10_colonless_header_skipped (F L R : Str)
    (hF : ∀ c ∈ F, c ≠ '\n') (hL : ∀ c ∈ L, c ≠ '\n')
    (hLne : L ≠ []) (hcolon : ':' ∉ L) :
    parseRequest (F ++ '\r' :: '\n' :: (L ++ '\r' :: '\n' :: R))
      = parseRequest (F ++ '\r' :: '\n' :: R)
    ∧ (∀ h, parseHeaderLine L h = h) := by
  have hskip : ∀ h, parseHeaderLine L h = h := by
    intro h
    rw [parseHeaderLine, findCharIdx_not_mem ':' L hcolon]
  refine ⟨?_, hskip⟩
  have hne1 : F ++ '\r' :: '\n' :: (L ++ '\r' :: '\n' :: R) ≠ [] := by simp
  have hlines1 : cppLines (F ++ '\r' :: '\n' :: (L ++ '\r' :: '\n' :: R))
      = (F ++ ['\r']) :: (L ++ ['\r']) :: cppLines R := by
    rw [cppLines_crlf_cons F _ hF, cppLines_crlf_cons L R hL]
  rw [parseRequest_cons_lines _ _ _ hne1 hlines1,
    parseRequest_cons_lines _ _ _ (by simp) (cppLines_crlf_cons F R hF),
    chomp_concat_cr]
  rcases hrl : parseRequestLine F with _ | ⟨m, p, q⟩
  · rfl
  · rw [parseHeadersGo_step L [] _ hLne, hskip]

/-- Witness for C10: inserting the colon-free line JunkLine into a
request leaves the parse unchanged. -/
theorem c10_colonless_header_skipped_witness :
    parseRequest ("GET / HTTP/1.1".data ++ '\r' :: '\n' ::
        ("JunkLine".data ++ '\r' :: '\n' :: "Host: h\r\n\r\nB".data))
      = parseRequest ("GET / HTTP/1.1".data ++ '\r' :: '\n' :: "Host: h\r\n\r\nB".data) :=
  (c10_colonless_header_skipped "GET / HTTP/1.1".data "JunkLine".data "Host: h\r\n\r\nB".data
    (by decide) (by decide) (by decide) (by decide)).1

end MiniServer
